import Mathlib

/-
Verification of the `romanize` crate's core `Romanizer::romanize` algorithm
(src/lib.rs) against its natural-language specification.

Modelling choices:
* Rust `&str`/`String` values are modelled as `List Char` (`Str`).  All
  indices the source manipulates (results of `str::find`, `String::insert`,
  slicing `[last_idx..]`) originate at character boundaries, so a
  character-level index model is observationally equivalent to the byte-level
  one.
* The external collaborators of the core (the `hangeul` pre-romanizer, the
  `igo` tagger, `wana_kana`'s `is_katakana` / `to_romaji`, Rust's Unicode
  character tables `char::is_alphanumeric` / `char::to_uppercase`, and the
  final NFKC normalizer) are parameters, collected in the `Externals` record.
* Fallible operations (`Option::unwrap` on a failed `str::find`, `Vec`
  indexing) are modelled in the `Option` monad: a `none` result of `step` /
  `romanize` models a Rust panic.  The source's `romanize` returns a plain
  `String`; it has no error variant, so its only failure mode is a panic.
-/

/-- Rust string, modelled at character granularity. -/
abbrev Str : Type := List Char

/-- One morpheme produced by the tagger (`igo::Morpheme`): its surface text
and its single comma-joined feature string. -/
structure Token where
  surface : Str
  feature : Str
deriving DecidableEq

/-- The mutable state of the token loop in `Romanizer::romanize`:
the output buffer `romanized`, the `insert_space` flag and the `last_idx`
search cursor. -/
structure AlignState where
  romanized : Str
  insert_space : Bool
  last_idx : Nat
deriving DecidableEq

/-- The external collaborators used by `Romanizer::romanize`, specified only
at their interfaces (spec section 1, "OUT OF SCOPE"). -/
structure Externals where
  hangeulRomanize : Str → Str
  parse : Str → List Token
  isKatakana : Str → Bool
  toRomaji : Str → Str
  isAlphanumeric : Char → Bool
  toUppercase : Char → Str
  nfkc : Str → Str

/-- The tagger's part-of-speech category for punctuation, `"記号"`. -/
def kigou : Str := "記号".toList

/-- The tagger's part-of-speech category for nouns, `"名詞"`. -/
def meishi : Str := "名詞".toList

/-- The standalone combining macron character `U+0304`, the replacement for
the transliterator's ASCII hyphen length marker (src/lib.rs line 95). -/
def lengthMark : Char := '\u0304'

/-- Rust `str::split(',').collect::<Vec<_>>()` (src/lib.rs line 70):
split on every separator, keeping empty pieces; the empty string yields one
empty piece. -/
def splitOn (sep : Char) : Str → List Str
  | [] => [[]]
  | c :: rest =>
    match splitOn sep rest with
    | [] => [[c]]
    | h :: t => if c = sep then [] :: h :: t else (c :: h) :: t

/-- Rust `str::find` (src/lib.rs lines 79 and 112): index of the first
(leftmost) occurrence of `pat` in the string, `none` if absent. -/
def strFind : Str → Str → Option Nat
  | [], pat => if pat.isPrefixOf ([] : Str) then some 0 else none
  | c :: t, pat =>
    if pat.isPrefixOf (c :: t) then some 0 else (strFind t pat).map (· + 1)

/-- Rust `str::replacen(pat, rep, 1)` (src/lib.rs line 101): replace the
first occurrence of `pat` with `rep`; leave the string unchanged when `pat`
does not occur. -/
def replacenOne (s pat rep : Str) : Str :=
  match strFind s pat with
  | some i => s.take i ++ rep ++ s.drop (i + pat.length)
  | none => s

/-- Rust `str::replace(pat_char, rep)` (src/lib.rs line 95): replace every
occurrence of the pattern character with `rep`. -/
def replaceChar (s : Str) (pat : Char) (rep : Str) : Str :=
  s.flatMap (fun c => if c = pat then rep else [c])

/-- Rust `String::insert(i, c)` (src/lib.rs line 113). -/
def insertAt (s : Str) (i : Nat) (c : Char) : Str :=
  s.take i ++ c :: s.drop i

/-- `uppercase_first_character` (src/lib.rs lines 128-134).  Rust's
`char::to_uppercase` may expand to several characters, hence the
`Char → Str` shape of `Externals.toUppercase`. -/
def uppercase_first_character (ext : Externals) : Str → Str
  | [] => []
  | c :: t => ext.toUppercase c ++ t

/-- The kana reading chosen for a token (src/lib.rs lines 81-85): feature
index 8 (the pronunciation) when present, else the surface itself when the
surface is wholly katakana, else `none` (the token is not phonetic). -/
def katakanaOf (ext : Externals) (feature : List Str) (surface : Str) : Option Str :=
  match feature.get? 8 with
  | some k => some k
  | none => if ext.isKatakana surface then some surface else none

/-- The replacement string built for a phonetic token (src/lib.rs lines
88-95): transliterate the reading, uppercase the first character when the
part-of-speech is a noun, then replace every ASCII hyphen by the combining
macron `U+0304`. -/
def phoneticReplacement (ext : Externals) (f0 : Str) (katakana : Str) : Str :=
  let replacement := ext.toRomaji katakana
  let replacement :=
    if f0 = meishi then uppercase_first_character ext replacement
    else replacement
  replaceChar replacement '-' [lengthMark]

/-- Rust `surface.chars().next().map(|c| c.is_alphanumeric()).unwrap_or(false)`
(src/lib.rs lines 105-110). -/
def firstAlphanumeric (ext : Externals) (s : Str) : Bool :=
  ((s.head?).map ext.isAlphanumeric).getD false

/-- One iteration of the token loop of `Romanizer::romanize`
(src/lib.rs lines 58-119).  A `none` result models a panic:
the `Vec` index `feature[0]` on an empty feature list (line 74, proved
unreachable), or an `unwrap` on a failed `find` (lines 79 and 112). -/
def step (ext : Externals) (st : AlignState) (part : Token) : Option AlignState :=
  match splitOn ',' part.feature with
  | [] => none
  | f0 :: fs =>
    if f0 = kigou then
      some ⟨st.romanized, false, st.last_idx⟩
    else
      match strFind st.romanized part.surface with
      | none => none
      | some idx =>
        match katakanaOf ext (f0 :: fs) part.surface with
        | some katakana =>
          let replacement := phoneticReplacement ext f0 katakana
          let replacement :=
            if st.insert_space then ' ' :: replacement else replacement
          some ⟨replacenOne st.romanized part.surface replacement, true, idx⟩
        | none =>
          if st.insert_space && firstAlphanumeric ext part.surface then
            match strFind (st.romanized.drop st.last_idx) part.surface with
            | none => none
            | some j =>
              some ⟨insertAt st.romanized (j + st.last_idx) ' ', false, idx⟩
          else
            some ⟨st.romanized, false, idx⟩

/-- The token loop of `Romanizer::romanize`, folding `step` over the
tagger's tokens in order. -/
def processTokens (ext : Externals) : List Token → AlignState → Option AlignState
  | [], st => some st
  | p :: ps, st =>
    match step ext st p with
    | none => none
    | some st' => processTokens ext ps st'

/-- `Romanizer::romanize` (src/lib.rs lines 51-124): pre-romanize Hangul in
the whole input to initialize the output buffer, tokenize the *original*
input, run the token loop, and NFKC-normalize the final buffer.  A `none`
result models a panic inside the loop; the source function returns a plain
`String` and has no error value. -/
def romanize (ext : Externals) (input : Str) : Option Str :=
  let romanized := ext.hangeulRomanize input
  let parts := ext.parse input
  match processTokens ext parts ⟨romanized, false, 0⟩ with
  | none => none
  | some st => some (ext.nfkc st.romanized)

/-- The aligner/reconstructor on an explicit buffer and token list
(spec section 4.4, `reconstruct(original_or_pre_romanized_text, tokens)`). -/
def reconstruct (ext : Externals) (buffer : Str) (tokens : List Token) : Option Str :=
  match processTokens ext tokens ⟨buffer, false, 0⟩ with
  | none => none
  | some st => some (ext.nfkc st.romanized)

/-- The variant of `romanize` that follows the specification's words for
claim C2 ("the tokenizer is invoked on the pre-romanized text, not on the
original input"); to be compared with `romanize`, which is translated from
the source and tokenizes the original input. -/
def romanizeSpecTokenization (ext : Externals) (input : Str) : Option Str :=
  let romanized := ext.hangeulRomanize input
  reconstruct ext romanized (ext.parse romanized)

/-- A neutral instantiation of the external collaborators, used to build
concrete scenarios for witnesses and counterexamples. -/
def extBase : Externals where
  hangeulRomanize := id
  parse := fun _ => []
  isKatakana := fun _ => false
  toRomaji := fun _ => []
  isAlphanumeric := Char.isAlphanum
  toUppercase := fun c => [c.toUpper]
  nfkc := id

/-! ## Helper lemmas -/

/-- Rust's `str::split` always yields at least one piece. -/
theorem splitOn_ne_nil (sep : Char) (s : Str) : splitOn sep s ≠ [] := by
  cases s with
  | nil => simp [splitOn]
  | cons c rest =>
    simp only [splitOn]
    cases h : splitOn sep rest with
    | nil => simp
    | cons hd tl =>
      by_cases hc : c = sep <;> simp [hc]

/-- Replacing a pattern character by a one-character string acts
characterwise. -/
theorem replaceChar_single (s : Str) (pat r : Char) :
    replaceChar s pat [r] = s.map (fun c => if c = pat then r else c) := by
  induction s with
  | nil => rfl
  | cons c t ih =>
    simp only [replaceChar, List.flatMap_cons, List.map_cons] at *
    split <;> simp_all

/-! ## Claim theorems -/

/-- Claim C10 (confirmed): splitting any feature string on `','` yields at
least one element, so the `feature[0]` access in the token loop
(src/lib.rs line 74) is total and never panics; the pronunciation at index
8 is only ever read through the `Option`-valued `Vec::get` (line 81). -/
theorem claim10_feature_split_nonempty (t : Token) :
    ∃ f0 fs, splitOn ',' t.feature = f0 :: fs ∧
      (splitOn ',' t.feature).get? 0 = some f0 := by
  cases h : splitOn ',' t.feature with
  | nil => exact absurd h (splitOn_ne_nil ',' t.feature)
  | cons f0 fs => exact ⟨f0, fs, rfl, rfl⟩

/-- Claim C8 (confirmed): processing a token whose part-of-speech feature is
the punctuation category `記号` clears the pending-space flag and leaves both
the output buffer and the cursor unchanged (src/lib.rs lines 72-77), so no
change to the output is made on that token's account. -/
theorem claim8_punctuation_frame (ext : Externals) (st : AlignState)
    (t : Token) (fs : List Str)
    (hsplit : splitOn ',' t.feature = kigou :: fs) :
    step ext st t = some ⟨st.romanized, false, st.last_idx⟩ := by
  simp [step, hsplit]

/-- Witness for C8: a concrete punctuation token (feature `記号`) leaves the
buffer and cursor of a concrete state untouched and clears the flag. -/
theorem claim8_witness :
    splitOn ',' "記号".toList = kigou :: [] ∧
      step extBase ⟨['A'], true, 5⟩ ⟨['。'], "記号".toList⟩ =
        some ⟨['A'], false, 5⟩ :=
  ⟨by decide, claim8_punctuation_frame extBase ⟨['A'], true, 5⟩
    ⟨['。'], "記号".toList⟩ [] (by decide)⟩

/-- Claim C6 (confirmed): in the replacement string built for any phonetic
token, every ASCII hyphen emitted by the transliterator has been replaced by
the combining macron `U+0304` (src/lib.rs line 95): the replacement contains
no hyphen at all, and it is the characterwise image of the (possibly
capitalized) transliterator output under the hyphen-to-macron map. -/
theorem claim6_hyphen_to_combining_mark (ext : Externals) (f0 k : Str) :
    '-' ∉ phoneticReplacement ext f0 k ∧
      phoneticReplacement ext f0 k =
        (if f0 = meishi then uppercase_first_character ext (ext.toRomaji k)
          else ext.toRomaji k).map
          (fun c => if c = '-' then lengthMark else c) := by
  constructor
  · simp only [phoneticReplacement, replaceChar_single]
    intro hmem
    rcases List.mem_map.mp hmem with ⟨c, _, hc⟩
    by_cases h : c = '-' <;> simp [h] at hc
    exact absurd hc (by decide)
  · simp only [phoneticReplacement, replaceChar_single]

/-- Claim C9 (confirmed): `romanize` is a pure function of the input and the
(fixed) external collaborators — the embedding retains no state across
calls — so equal inputs give equal outputs and equal failures. -/
theorem claim9_deterministic (ext : Externals) (input₁ input₂ : Str)
    (h : input₁ = input₂) : romanize ext input₁ = romanize ext input₂ := by
  rw [h]

/-- Witness for C9: two invocations on the same concrete input agree. -/
theorem claim9_witness :
    "あ".toList = "あ".toList ∧
      romanize extBase "あ".toList = romanize extBase "あ".toList :=
  ⟨rfl, claim9_deterministic extBase "あ".toList "あ".toList rfl⟩

/-! ## Claim C3: cursor monotonicity (code bug) -/

/-- A concrete tagger output used to exercise the cursor: three opaque
tokens with surfaces `A`, `X`, `A` (feature `x`: not punctuation, no
pronunciation feature, not katakana), a legal in-order segmentation of the
input `AXA`. -/
def extAXA : Externals :=
  { extBase with parse := fun _ => [⟨['A'], ['x']⟩, ⟨['X'], ['x']⟩, ⟨['A'], ['x']⟩] }

/-- Claim C3 (code bug): the source comments `last_idx` as a "Monotonically
increasing index", and the claim states it is non-decreasing across
iterations; but because `idx` comes from an unrestricted `find`
(src/lib.rs line 79), processing tokens `A`, `X`, `A` on the buffer `AXA`
moves the cursor 0, 1 and then back to 0: the third token's search re-finds
the first `A`.  The cursor therefore decreases from 1 to 0. -/
theorem claim3_cursor_decreases :
    (processTokens extAXA [⟨['A'], ['x']⟩, ⟨['X'], ['x']⟩]
        ⟨"AXA".toList, false, 0⟩).map AlignState.last_idx = some 1 ∧
      (processTokens extAXA [⟨['A'], ['x']⟩, ⟨['X'], ['x']⟩, ⟨['A'], ['x']⟩]
        ⟨"AXA".toList, false, 0⟩).map AlignState.last_idx = some 0 := by
  decide

/-! ## Claim C1: lookup failure surfaces as a panic, not an error value -/

/-- A tagger returning a token whose surface `Z` does not occur in the
input `A`: the alignment's `find` fails. -/
def extLostToken : Externals :=
  { extBase with parse := fun _ => [⟨['Z'], ['x']⟩] }

/-- Counterexample for C1: when a token's surface cannot be found in the
output buffer, the source hits `.unwrap()` on `None` (src/lib.rs line 79)
and panics — modelled as a `none` result.  `Romanizer::romanize` returns a
plain `String`, which has no failure variant, so the caller receives a
panic, not the distinct error/failure value the claim requires. -/
theorem claim1_counterexample : romanize extLostToken ['A'] = none := by
  decide

/-- Claim C1 as amended (the failure is a panic, not an error value): the
only way one iteration of the token loop can fail is a surface-lookup
failure — either the unrestricted search (src/lib.rs line 79) or the
cursor-bounded search (line 112) finds nothing — and in that event the call
aborts whole, producing no truncated or corrupted output string. -/
theorem claim1_panic_only_on_lookup_failure (ext : Externals)
    (st : AlignState) (t : Token) (h : step ext st t = none) :
    strFind st.romanized t.surface = none ∨
      strFind (st.romanized.drop st.last_idx) t.surface = none := by
  rcases hs : splitOn ',' t.feature with _ | ⟨f0, fs⟩
  · exact absurd hs (splitOn_ne_nil ',' t.feature)
  · simp only [step, hs] at h
    by_cases hk : f0 = kigou
    · simp [hk] at h
    · rw [if_neg hk] at h
      rcases hf : strFind st.romanized t.surface with _ | idx
      · exact Or.inl rfl
      · rcases hkat : katakanaOf ext (f0 :: fs) t.surface with _ | k
        · rcases hb : strFind (st.romanized.drop st.last_idx) t.surface
            with _ | j
          · exact Or.inr rfl
          · simp only [hf, hkat, hb] at h
            split at h <;> simp_all
        · simp only [hf, hkat] at h
          exact absurd h (by simp)

/-- Witness for the amended C1: on a concrete failing state the only
failure cause is the failed lookup. -/
theorem claim1_witness :
    step extLostToken ⟨['A'], false, 0⟩ ⟨['Z'], ['x']⟩ = none ∧
      (strFind ['A'] ['Z'] = none ∨
        strFind (List.drop 0 ['A']) ['Z'] = none) :=
  ⟨by decide, claim1_panic_only_on_lookup_failure extLostToken
    ⟨['A'], false, 0⟩ ⟨['Z'], ['x']⟩ (by decide)⟩

/-! ## Claim C2: which text is tokenized -/

/-- Externals whose pre-romanizer rewrites the input `A` to `B`, and whose
tagger distinguishes the two: on the original `A` it returns no tokens, on
the pre-romanized `B` it returns a token with surface `Q`. -/
def extPre : Externals :=
  { extBase with
      hangeulRomanize := fun _ => ['B']
      parse := fun s => if s = ['A'] then [] else [⟨['Q'], ['x']⟩] }

/-- Counterexample for C2: the source tokenizes the *original* input
(`self.tagger.parse(input)`, src/lib.rs line 54), not the pre-romanized
buffer, so it disagrees with the spec-worded variant
`romanizeSpecTokenization` on a pre-romanizer that changes the text: the
source succeeds with `B` while the spec variant panics on the unfindable
token `Q`. -/
theorem claim2_counterexample :
    romanize extPre ['A'] = some ['B'] ∧
      romanizeSpecTokenization extPre ['A'] = none ∧
      romanize extPre ['A'] ≠ romanizeSpecTokenization extPre ['A'] := by
  decide

/-- Claim C2 as amended: the pre-romanizer is applied once to the whole
input and its result initializes the output buffer, but the tokenizer is
invoked on the original input; replacing the pre-romanizer by any function
`g` leaves the token sequence — taken from the original input — unchanged,
and `romanize` is the reconstruction of the buffer `g input` against the
tokens of `input`. -/
theorem claim2_tokenizes_original_input (ext : Externals) (g : Str → Str)
    (input : Str) :
    romanize { ext with hangeulRomanize := g } input =
      reconstruct ext (g input) (ext.parse input) := by
  have hstep : ∀ st t, step { ext with hangeulRomanize := g } st t
      = step ext st t := fun _ _ => rfl
  have hproc : ∀ ts st, processTokens { ext with hangeulRomanize := g } ts st
      = processTokens ext ts st := by
    intro ts
    induction ts with
    | nil => intro st; rfl
    | cons p ps ih =>
      intro st
      simp only [processTokens, hstep]
      cases step ext st p with
      | none => rfl
      | some st' => exact ih st'
  simp only [romanize, reconstruct, hproc]

/-! ## Claim C4: single substitution for phonetic tokens -/

/-- Claim C4 (confirmed): for a phonetic token (non-punctuation, with a
usable kana reading) whose surface occurs in the output buffer, the step
rewrites exactly the one occurrence at `idx` — the first occurrence found
by the unrestricted forward search `strFind` over the whole buffer
(src/lib.rs lines 79 and 101) — leaving the prefix before it and the
suffix after it (and hence any later occurrences) verbatim; it never
rewrites all occurrences. -/
theorem claim4_single_substitution (ext : Externals) (st : AlignState)
    (t : Token) (f0 : Str) (fs : List Str) (k : Str) (idx : Nat)
    (hsplit : splitOn ',' t.feature = f0 :: fs)
    (hf0 : ¬f0 = kigou)
    (hk : katakanaOf ext (f0 :: fs) t.surface = some k)
    (hfind : strFind st.romanized t.surface = some idx) :
    step ext st t = some ⟨st.romanized.take idx ++
        (if st.insert_space then ' ' :: phoneticReplacement ext f0 k
          else phoneticReplacement ext f0 k) ++
        st.romanized.drop (idx + t.surface.length), true, idx⟩ := by
  simp only [step, hsplit]
  rw [if_neg hf0]
  simp only [hfind, hk, replacenOne]

/-- Externals for the C4 witness: the surface `K` counts as katakana and
transliterates to `r`. -/
def extKat : Externals :=
  { extBase with
      isKatakana := fun s => s == ['K']
      toRomaji := fun _ => ['r'] }

/-- Witness for C4: on the buffer `KXK` with two occurrences of the
phonetic surface `K`, only the first is rewritten (giving `rXK`); the
second occurrence survives. -/
theorem claim4_witness :
    katakanaOf extKat [['x']] ['K'] = some ['K'] ∧
      step extKat ⟨"KXK".toList, false, 0⟩ ⟨['K'], ['x']⟩ =
        some ⟨"rXK".toList, true, 0⟩ :=
  ⟨by decide, claim4_single_substitution extKat ⟨"KXK".toList, false, 0⟩
    ⟨['K'], ['x']⟩ ['x'] [] ['K'] 0 (by decide) (by decide) (by decide)
    (by decide)⟩

/-! ## Claim C5: noun capitalization -/

/-- Claim C5 (confirmed): in the replacement built for a phonetic token,
the first letter of the transliterator's output is uppercased exactly when
the part-of-speech feature is the noun category `名詞` (src/lib.rs lines
90-93); otherwise the first letter is exactly the character the
transliterator produced, and in both cases the remaining characters are
kept (up to the hyphen-to-macron substitution). -/
theorem claim5_noun_capitalization (ext : Externals) (f0 k : Str)
    (c c' : Char) (rest : Str)
    (hr : ext.toRomaji k = c :: rest)
    (hu : ext.toUppercase c = [c'])
    (hc : ¬c = '-') (hc' : ¬c' = '-') :
    phoneticReplacement ext f0 k =
      (if f0 = meishi then c' else c) ::
        rest.map (fun x => if x = '-' then lengthMark else x) := by
  simp only [phoneticReplacement, hr]
  by_cases h : f0 = meishi
  · simp [h, uppercase_first_character, hu, replaceChar_single, hc']
  · simp [h, replaceChar_single, hc]

/-- Externals for the C5 witness: the transliterator renders every reading
as `ka-`. -/
def extRom : Externals := { extBase with toRomaji := fun _ => "ka-".toList }

/-- Witness for C5: with transliterator output `ka-`, a noun token's
replacement starts with `K` while a non-noun token's replacement starts
with the untouched `k` (and the trailing length hyphen becomes a combining
macron in both). -/
theorem claim5_witness :
    extRom.toRomaji [] = 'k' :: "a-".toList ∧
      phoneticReplacement extRom meishi [] = ['K', 'a', lengthMark] ∧
      phoneticReplacement extRom ['x'] [] = ['k', 'a', lengthMark] :=
  ⟨rfl,
    claim5_noun_capitalization extRom meishi [] 'k' 'K' "a-".toList rfl
      (by decide) (by decide) (by decide),
    claim5_noun_capitalization extRom ['x'] [] 'k' 'K' "a-".toList rfl
      (by decide) (by decide) (by decide)⟩

/-! ## Claim C7: spacing before opaque tokens -/

/-- Claim C7 (confirmed): for an opaque token (non-punctuation, no kana
reading) whose surface occurs in the buffer, a single space is inserted iff
the pending-space flag is set and the first character of the surface is
alphanumeric, and then immediately before the first occurrence of the
surface found searching from the cursor onward (src/lib.rs lines 103-116);
in every case the flag is cleared afterwards and the cursor is set to the
unrestricted-search position `idx`. -/
theorem claim7_opaque_spacing (ext : Externals) (st : AlignState)
    (t : Token) (f0 : Str) (fs : List Str) (idx : Nat)
    (hsplit : splitOn ',' t.feature = f0 :: fs)
    (hf0 : ¬f0 = kigou)
    (hk : katakanaOf ext (f0 :: fs) t.surface = none)
    (hfind : strFind st.romanized t.surface = some idx) :
    (∀ j, st.insert_space = true → firstAlphanumeric ext t.surface = true →
        strFind (st.romanized.drop st.last_idx) t.surface = some j →
        step ext st t =
          some ⟨insertAt st.romanized (j + st.last_idx) ' ', false, idx⟩) ∧
      ((st.insert_space = false ∨ firstAlphanumeric ext t.surface = false) →
        step ext st t = some ⟨st.romanized, false, idx⟩) := by
  constructor
  · intro j h1 h2 hj
    simp only [step, hsplit]
    rw [if_neg hf0]
    simp only [hfind, hk, h1, h2, hj, Bool.and_self, if_true]
  · intro hor
    simp only [step, hsplit]
    rw [if_neg hf0]
    have hcond : (st.insert_space && firstAlphanumeric ext t.surface) = false := by
      rcases hor with h | h <;> simp [h]
    simp only [hfind, hk, hcond, Bool.false_eq_true, if_false]

/-- Witness for C7: on the buffer `Y A` with the flag set, the opaque token
`A` (alphanumeric first character) gets one space inserted immediately
before its occurrence found from the cursor, the flag is cleared, and the
cursor becomes the unrestricted-search position 2. -/
theorem claim7_witness :
    katakanaOf extBase [['x']] ['A'] = none ∧
      step extBase ⟨"Y A".toList, true, 0⟩ ⟨['A'], ['x']⟩ =
        some ⟨"Y  A".toList, false, 2⟩ :=
  ⟨by decide, (claim7_opaque_spacing extBase ⟨"Y A".toList, true, 0⟩
      ⟨['A'], ['x']⟩ ['x'] [] 2 (by decide) (by decide) (by decide)
      (by decide)).1 2 rfl (by decide) (by decide)⟩
